import Mathlib

/-!
Verification development for the georeferencing pipeline of
`AplicacionLimpieza` (`src/georeferenciacion.py`).

The Python module is shallowly embedded as executable Lean definitions:

* A pandas `DataFrame` row is a `Row` (index label, opaque payload, nullable
  address cell); `geocodificar_direcciones` adds `LATITUD`/`LONGITUD`
  (`GeoRow`) and `asignar_seccion_electoral` adds `SECCION_ELECTORAL`
  (`ZonaRow`).  Index labels are modelled explicitly because the code ends
  with `sort_index()` and a keep-first deduplication on index labels.
* Latitudes/longitudes are rationals; the geocode client is a function from
  the address and the attempt number to an exceptional result
  (`Except Unit (Option Location)`), so one client can fail on some attempts
  and succeed on others.
* geopy's `RateLimiter(..., max_retries=2)` retries a failed call up to
  `max_retries` times after the initial call and, having exhausted the
  retries, swallows the error and returns `None` (its default
  `return_value_on_exception`).
* The concurrent branch (`ThreadPoolExecutor`) submits exactly one job per
  unique address and writes each result once into the cache, like the
  sequential branch; both are embedded as the same sequential cache
  construction, with the callback trace taken from the sequential regime.
* `gpd.sjoin(..., how="left", predicate="within")` is embedded as: each
  valid point contributes one output row per containing polygon (in the
  order the zone list was built), or a single row with no section when no
  polygon contains it.  The subsequent
  `resultado[~resultado.index.duplicated(keep='first')]` and the
  index-aligned column assignment are modelled exactly (keep-first by index
  label, then lookup by label).
* `sort_index()` is embedded as a comparison sort on the index label.
-/

/-- A geocoder location, as returned by a geopy geocoder: a latitude and a
longitude (modelled as rationals). -/
structure Location where
  latitude : Rat
  longitude : Rat
deriving DecidableEq, Repr

/-- A geocode client: given the address and the attempt number, either a
transport/provider failure (`Except.error`), a null result (`Except.ok none`,
geopy returning `None`), or a location. -/
def GeocodeClient : Type := String → Nat → Except Unit (Option Location)

/-- Per-provider configuration, one entry of `PROVEEDORES`. -/
structure ProveedorConfig where
  descripcion : String
  workers : Nat
  delay : Rat
deriving DecidableEq, Repr

/-- The provider registry `PROVEEDORES` of `georeferenciacion.py`. -/
def PROVEEDORES : List (String × ProveedorConfig) :=
  [("ArcGIS", ⟨"Rápido y gratuito (~20 req/s con concurrencia). Sin API key.", 8, 1/20⟩),
   ("Photon", ⟨"Basado en OpenStreetMap, rápido y sin límites estrictos.", 6, 1/10⟩),
   ("Nominatim", ⟨"OpenStreetMap oficial. Lento (~1 req/s). Ideal para pocas direcciones.", 1, 11/10⟩)]

/-- The retry cap passed to `RateLimiter` in `GeoReferenciador.__init__`
(`max_retries=2`). -/
def MAX_RETRIES : Nat := 2

/-- The state of a `GeoReferenciador` after `__init__` succeeds. -/
structure GeoReferenciador where
  proveedor : String
  maxWorkers : Nat
  minDelay : Rat
deriving DecidableEq, Repr

/-- Model of `GeoReferenciador.__init__`: looks the provider up in `PROVEEDORES` and
raises `ValueError` (here: `Except.error`) for an unknown name, before any
row is read and before any lookup is dispatched. -/
def georeferenciadorInit (proveedor : String) : Except String GeoReferenciador :=
  match PROVEEDORES.lookup proveedor with
  | none => Except.error ("Proveedor no soportado: " ++ proveedor)
  | some config => Except.ok ⟨proveedor, config.workers, config.delay⟩

/-- One attempt round of geopy's `RateLimiter`: try the wrapped call; on
failure move to the next attempt while fuel remains; with the fuel exhausted
the error is swallowed and `none` (the default `return_value_on_exception`)
is returned. -/
def rateLimiterAux (c : Nat → Except Unit (Option Location)) : Nat → Nat → Option Location
  | _, 0 => none
  | attempt, fuel + 1 =>
    match c attempt with
    | Except.ok loc => loc
    | Except.error _ => rateLimiterAux c (attempt + 1) fuel

/-- Model of `self._geocode(...)`: the rate-limited call with `max_retries = 2`,
hence at most `1 + MAX_RETRIES` underlying calls. -/
def rateLimiter (c : Nat → Except Unit (Option Location)) : Option Location :=
  rateLimiterAux c 0 (MAX_RETRIES + 1)

/-- Number of underlying geocoder calls the rate limiter performs. -/
def rateLimiterLlamadasAux (c : Nat → Except Unit (Option Location)) : Nat → Nat → Nat
  | _, 0 => 0
  | attempt, fuel + 1 =>
    match c attempt with
    | Except.ok _ => 1
    | Except.error _ => 1 + rateLimiterLlamadasAux c (attempt + 1) fuel

/-- Call count of `rateLimiter`. -/
def rateLimiterLlamadas (c : Nat → Except Unit (Option Location)) : Nat :=
  rateLimiterLlamadasAux c 0 (MAX_RETRIES + 1)

/-- A whitespace character as stripped by Python's `str.strip()` (the ASCII
whitespace characters; the embedding restricts address text to these). -/
def esEspacio (c : Char) : Bool :=
  c == ' ' || c == '\t' || c == '\n' || c == '\r' || c == '\x0b' || c == '\x0c'

/-- Python's `not direccion or direccion.strip() == ""`: the address is
empty or whitespace-only (stripping leaves nothing). -/
def esBlanca (s : String) : Bool := s.toList.all esEspacio

/-- Model of `GeoReferenciador._geocodificar_una`: geocode one address, returning
`(lat, lon)` or `(None, None)`; a blank address is answered without calling
the client, a null location or an exhausted-retry failure both give
`(None, None)`. -/
def geocodificarUna (client : GeocodeClient) (direccion : String) :
    Option Rat × Option Rat :=
  if esBlanca direccion then (none, none)
  else
    match rateLimiter (client direccion) with
    | some location => (some location.latitude, some location.longitude)
    | none => (none, none)

/-- An input row: pandas index label, opaque passthrough payload, and the
nullable address cell (`None` models `NaN`). -/
structure Row where
  idx : Nat
  payload : Nat
  direccion : Option String
deriving DecidableEq, Repr

/-- A row after `geocodificar_direcciones`: `LATITUD` and `LONGITUD` added. -/
structure GeoRow where
  idx : Nat
  payload : Nat
  direccion : Option String
  latitud : Option Rat
  longitud : Option Rat
deriving DecidableEq, Repr

/-- A row after `asignar_seccion_electoral`: `SECCION_ELECTORAL` added. -/
structure ZonaRow where
  idx : Nat
  payload : Nat
  direccion : Option String
  latitud : Option Rat
  longitud : Option Rat
  seccion : Option Nat
deriving DecidableEq, Repr

/-- The `Row` part of a `ZonaRow` (the columns the pipeline must pass
through untouched). -/
def ZonaRow.aRow (z : ZonaRow) : Row := ⟨z.idx, z.payload, z.direccion⟩

/-- Keep the first element for each key (`seen` accumulates keys already
emitted), dropping later elements with an already-seen key. -/
def uniqueFirstByAux {α β : Type} [DecidableEq β] (key : α → β) (seen : List β) :
    List α → List α
  | [] => []
  | a :: l =>
    if key a ∈ seen then uniqueFirstByAux key seen l
    else a :: uniqueFirstByAux key (key a :: seen) l

/-- Keep the first element for each key, dropping later elements with an
already-seen key.  Instantiated at `id` it is pandas `Series.unique`
(first-occurrence order) and at `Prod.fst` it is
`~index.duplicated(keep='first')`. -/
def uniqueFirstBy {α β : Type} [DecidableEq β] (key : α → β) (l : List α) : List α :=
  uniqueFirstByAux key [] l

/-- The non-null address cells of the frame, in row order
(`df[col].dropna()`). -/
def valoresDireccion (df : List Row) : List String :=
  df.filterMap Row.direccion

/-- Step 1 of `geocodificar_direcciones`: the unique non-blank addresses,
in first-occurrence order (`dropna`, strip-filter, `unique`). -/
def direccionesUnicas (df : List Row) : List String :=
  uniqueFirstBy id ((valoresDireccion df).filter (fun s => !(esBlanca s)))

/-- Step 2 of `geocodificar_direcciones`: the cache, one entry per unique
address.  Both the sequential branch and the thread-pool branch submit each
unique address exactly once and store its result once. -/
def buildCache (client : GeocodeClient) (df : List Row) :
    List (String × (Option Rat × Option Rat)) :=
  (direccionesUnicas df).map (fun d => (d, geocodificarUna client d))

/-- Model of `cache.get(d, (None, None))`, applied to a nullable address cell (pandas
`map` also feeds `NaN` to the lambda; `NaN` is never a cache key). -/
def cacheGet (cache : List (String × (Option Rat × Option Rat))) :
    Option String → Option Rat × Option Rat
  | none => (none, none)
  | some d => (cache.lookup d).getD (none, none)

/-- Model of `GeoReferenciador.geocodificar_direcciones`, returning the output frame
together with the progress-callback trace `(progreso, total, direccion)`
(the trace is the sequential regime's; the parallel regime emits the same
multiset of calls in completion order). -/
def geocodificarDireccionesTr (client : GeocodeClient) (df : List Row) :
    List GeoRow × List (Nat × Nat × String) :=
  let dirs := direccionesUnicas df
  let cache := buildCache client df
  (df.map (fun r =>
      { idx := r.idx, payload := r.payload, direccion := r.direccion
        latitud := (cacheGet cache r.direccion).1
        longitud := (cacheGet cache r.direccion).2 }),
   dirs.enum.map (fun p => (p.1 + 1, dirs.length, p.2)))

/-- The output frame of `geocodificar_direcciones`. -/
def geocodificarDirecciones (client : GeocodeClient) (df : List Row) :
    List GeoRow :=
  (geocodificarDireccionesTr client df).1

/-- The progress-callback trace of `geocodificar_direcciones`. -/
def progresoTrace (client : GeocodeClient) (df : List Row) :
    List (Nat × Nat × String) :=
  (geocodificarDireccionesTr client df).2

/-- A zone polygon of the loaded GeoJSON: its `SECCION` identifier and its
geometry, abstracted to a decidable point-membership test on `(lon, lat)`
(shapely's `within` on `Point(lon, lat)`). -/
structure Poligono where
  seccion : Nat
  contains : Rat × Rat → Bool

/-- The mask `df['LATITUD'].notna() & df['LONGITUD'].notna()`. -/
def maskValido (r : GeoRow) : Bool := r.latitud.isSome && r.longitud.isSome

/-- The shapely point `Point(lon, lat)` built for a row (only meaningful on
rows passing `maskValido`). -/
def puntoDe (r : GeoRow) : Rat × Rat := (r.longitud.getD 0, r.latitud.getD 0)

/-- The rows `gpd.sjoin(..., how="left", predicate="within")` emits for one
valid-coordinate input row: one `(index label, SECCION)` row per containing
polygon, or a single `(index label, NaN)` row when no polygon contains the
point.  Multiple matches are emitted in the order the zone list was built
(the order geopandas actually emits them in is an undocumented
spatial-index internal; nothing proved below about unmatched or missing
geometry depends on this order). -/
def sjoinFilas (zonas : List Poligono) (r : GeoRow) : List (Nat × Option Nat) :=
  let ms := zonas.filter (fun z => z.contains (puntoDe r))
  if ms.isEmpty then [(r.idx, none)] else ms.map (fun z => (r.idx, some z.seccion))

/-- The deduplicated join result
`resultado[~resultado.index.duplicated(keep='first')]`: the concatenated
per-row join output, keeping the first row per index label. -/
def resultadoSjoin (zonas : List Poligono) (dfG : List GeoRow) :
    List (Nat × Option Nat) :=
  uniqueFirstBy Prod.fst (((dfG.filter maskValido).map (sjoinFilas zonas)).flatten)

/-- Attach a `SECCION_ELECTORAL` value to a geocoded row. -/
def mkZona (r : GeoRow) (s : Option Nat) : ZonaRow :=
  ⟨r.idx, r.payload, r.direccion, r.latitud, r.longitud, s⟩

/-- Index-label order on output rows, the comparison used by
`sort_index()`. -/
def idxLe (a b : ZonaRow) : Prop := a.idx ≤ b.idx

instance : DecidableRel idxLe := fun a b => Nat.decLe a.idx b.idx

instance : IsTotal ZonaRow idxLe := ⟨fun a b => Nat.le_total a.idx b.idx⟩

instance : IsTrans ZonaRow idxLe := ⟨fun _ _ _ h h' => Nat.le_trans h h'⟩

/-- Model of `sort_index()`: sort the concatenated frame by index label. -/
def sortByIdx (l : List ZonaRow) : List ZonaRow := l.insertionSort idxLe

/-- Model of `GeoReferenciador.asignar_seccion_electoral`: split the frame by
coordinate validity, spatial-join the valid part, deduplicate the join
result by index label keeping the first row, assign the section column by
index-label alignment, set the invalid part's section to `None`, then
concatenate and `sort_index()`. -/
def asignarSeccionElectoral (zonas : List Poligono) (dfG : List GeoRow) :
    List ZonaRow :=
  let conGeom := dfG.filter maskValido
  let sinGeom := dfG.filter (fun r => !(maskValido r))
  let resultado := resultadoSjoin zonas dfG
  let conAsignado := conGeom.map (fun r => mkZona r ((resultado.lookup r.idx).getD none))
  let sinAsignado := sinGeom.map (fun r => mkZona r none)
  sortByIdx (conAsignado ++ sinAsignado)

/-- Model of `GeoReferenciador.ejecutar` (after the GeoJSON has been loaded into
`zonas`): geocoding followed by section assignment. -/
def ejecutar (client : GeocodeClient) (zonas : List Poligono) (df : List Row) :
    List ZonaRow :=
  asignarSeccionElectoral zonas (geocodificarDirecciones client df)

/-! ## Helper lemmas: keep-first deduplication -/

lemma mem_of_mem_uniqueFirstByAux {α β : Type} [DecidableEq β] (key : α → β) :
    ∀ (seen : List β) (l : List α) (a : α), a ∈ uniqueFirstByAux key seen l → a ∈ l := by
  intro seen l
  induction l generalizing seen with
  | nil => intro a h; simp [uniqueFirstByAux] at h
  | cons x t ih =>
    intro a h
    simp only [uniqueFirstByAux] at h
    split at h
    · exact List.mem_cons_of_mem _ (ih seen a h)
    · rcases List.mem_cons.mp h with h' | h'
      · exact h' ▸ List.mem_cons_self _ _
      · exact List.mem_cons_of_mem _ (ih _ a h')

lemma key_not_seen_of_mem_uniqueFirstByAux {α β : Type} [DecidableEq β] (key : α → β) :
    ∀ (seen : List β) (l : List α) (a : α),
      a ∈ uniqueFirstByAux key seen l → key a ∉ seen := by
  intro seen l
  induction l generalizing seen with
  | nil => intro a h; simp [uniqueFirstByAux] at h
  | cons x t ih =>
    intro a h
    simp only [uniqueFirstByAux] at h
    split at h
    · exact ih seen a h
    · rcases List.mem_cons.mp h with h' | h'
      · subst h'; assumption
      · intro hm
        exact ih _ a h' (List.mem_cons_of_mem _ hm)

lemma nodup_keys_uniqueFirstByAux {α β : Type} [DecidableEq β] (key : α → β) :
    ∀ (seen : List β) (l : List α), ((uniqueFirstByAux key seen l).map key).Nodup := by
  intro seen l
  induction l generalizing seen with
  | nil => simp [uniqueFirstByAux]
  | cons x t ih =>
    simp only [uniqueFirstByAux]
    split
    · exact ih seen
    · simp only [List.map_cons, List.nodup_cons]
      refine ⟨?_, ih _⟩
      intro hmem
      rcases List.mem_map.mp hmem with ⟨b, hb, hkb⟩
      exact key_not_seen_of_mem_uniqueFirstByAux key _ t b hb
        (hkb ▸ List.mem_cons_self _ _)

lemma nodup_keys_uniqueFirstBy {α β : Type} [DecidableEq β] (key : α → β) (l : List α) :
    ((uniqueFirstBy key l).map key).Nodup :=
  nodup_keys_uniqueFirstByAux key [] l

lemma mem_uniqueFirstByAux_id {α : Type} [DecidableEq α] :
    ∀ (seen : List α) (l : List α) (a : α),
      a ∈ uniqueFirstByAux id seen l ↔ (a ∈ l ∧ a ∉ seen) := by
  intro seen l
  induction l generalizing seen with
  | nil => intro a; simp [uniqueFirstByAux]
  | cons x t ih =>
    intro a
    by_cases hxs : x ∈ seen
    · simp only [uniqueFirstByAux, id_eq, if_pos hxs]
      rw [ih]
      constructor
      · rintro ⟨h1, h2⟩
        exact ⟨List.mem_cons_of_mem _ h1, h2⟩
      · rintro ⟨h1, h2⟩
        rcases List.mem_cons.mp h1 with h' | h'
        · subst h'; exact absurd hxs h2
        · exact ⟨h', h2⟩
    · simp only [uniqueFirstByAux, id_eq, if_neg hxs]
      constructor
      · intro h
        rcases List.mem_cons.mp h with h' | h'
        · subst h'; exact ⟨List.mem_cons_self _ _, hxs⟩
        · have := (ih _ a).mp h'
          exact ⟨List.mem_cons_of_mem _ this.1,
            fun hm => this.2 (List.mem_cons_of_mem _ hm)⟩
      · rintro ⟨h1, h2⟩
        rcases List.mem_cons.mp h1 with h' | h'
        · subst h'; exact List.mem_cons_self _ _
        · by_cases hax : a = x
          · subst hax; exact List.mem_cons_self _ _
          · exact List.mem_cons_of_mem _
              ((ih _ a).mpr ⟨h', by simp [hax, h2]⟩)

lemma mem_uniqueFirstBy_id {α : Type} [DecidableEq α] (l : List α) (a : α) :
    a ∈ uniqueFirstBy id l ↔ a ∈ l := by
  rw [uniqueFirstBy, mem_uniqueFirstByAux_id]
  simp

lemma nodup_uniqueFirstBy_id {α : Type} [DecidableEq α] (l : List α) :
    (uniqueFirstBy id l).Nodup := by
  have h := nodup_keys_uniqueFirstBy id l
  simpa using h

/-! ## Helper lemmas: association-list lookup -/

lemma lookup_map_pair {α γ : Type} [DecidableEq α] [BEq α] [LawfulBEq α]
    (f : α → γ) : ∀ (dirs : List α) (s : α),
      ((dirs.map (fun d => (d, f d))).lookup s)
        = if s ∈ dirs then some (f s) else none := by
  intro dirs
  induction dirs with
  | nil => intro s; simp
  | cons d t ih =>
    intro s
    by_cases hsd : s = d
    · subst hsd
      simp [List.lookup]
    · simp [List.lookup, beq_false_of_ne hsd, ih, hsd]

lemma lookup_eq_none_of_forall_fst_ne {α γ : Type} [BEq α] [LawfulBEq α] :
    ∀ (l : List (α × γ)) (a : α), (∀ p ∈ l, p.1 ≠ a) → l.lookup a = none := by
  intro l
  induction l with
  | nil => intro a _; rfl
  | cons p t ih =>
    rcases p with ⟨k, v⟩
    intro a h
    have hne : k ≠ a := h (k, v) (List.mem_cons_self _ _)
    have hbeq : (a == k) = false := by
      rw [beq_eq_false_iff_ne]
      exact fun he => hne he.symm
    simp only [List.lookup_cons, hbeq]
    exact ih a (fun q hq => h q (List.mem_cons_of_mem _ hq))

lemma lookup_append_left {α γ : Type} [BEq α] :
    ∀ (l₁ l₂ : List (α × γ)) (a : α) (v : γ),
      l₁.lookup a = some v → (l₁ ++ l₂).lookup a = some v := by
  intro l₁ l₂ a v
  induction l₁ with
  | nil => intro h; simp [List.lookup] at h
  | cons p t ih =>
    rcases p with ⟨k, w⟩
    simp only [List.cons_append, List.lookup_cons]
    cases hk : a == k
    · simpa using ih
    · simp

lemma lookup_append_none {α γ : Type} [BEq α] :
    ∀ (l₁ l₂ : List (α × γ)) (a : α),
      l₁.lookup a = none → (l₁ ++ l₂).lookup a = l₂.lookup a := by
  intro l₁ l₂ a
  induction l₁ with
  | nil => intro _; rfl
  | cons p t ih =>
    rcases p with ⟨k, w⟩
    simp only [List.cons_append, List.lookup_cons]
    cases hk : a == k
    · simpa using ih
    · simp

lemma lookup_uniqueFirstByAux_fst {α γ : Type} [DecidableEq α] [BEq α] [LawfulBEq α] :
    ∀ (seen : List α) (l : List (α × γ)) (a : α),
      (uniqueFirstByAux Prod.fst seen l).lookup a
        = if a ∈ seen then none else l.lookup a := by
  intro seen l
  induction l generalizing seen with
  | nil => intro a; simp [uniqueFirstByAux]
  | cons p t ih =>
    rcases p with ⟨k, v⟩
    intro a
    by_cases hks : k ∈ seen
    · simp only [uniqueFirstByAux, if_pos hks]
      rw [ih]
      by_cases has : a ∈ seen
      · simp [has]
      · have hak : (a == k) = false := by
          rw [beq_eq_false_iff_ne]
          exact fun h => has (h ▸ hks)
        simp [has, List.lookup_cons, hak]
    · simp only [uniqueFirstByAux, if_neg hks]
      by_cases hak : a = k
      · subst hak
        simp [List.lookup_cons, if_neg hks]
      · have hbeq : (a == k) = false := by
          rw [beq_eq_false_iff_ne]; exact hak
        simp only [List.lookup_cons, hbeq, ih]
        by_cases has : a ∈ seen
        · simp [has, List.mem_cons, hak]
        · simp [has, List.mem_cons, hak]

lemma lookup_uniqueFirstBy_fst {α γ : Type} [DecidableEq α] [BEq α] [LawfulBEq α]
    (l : List (α × γ)) (a : α) :
    (uniqueFirstBy Prod.fst l).lookup a = l.lookup a := by
  rw [uniqueFirstBy, lookup_uniqueFirstByAux_fst]
  simp

lemma lookup_getD_none_of_forall_none {α : Type} [BEq α] :
    ∀ (l : List (α × Option Nat)) (a : α), (∀ p ∈ l, p.2 = none) →
      (l.lookup a).getD none = none := by
  intro l
  induction l with
  | nil => intro a _; rfl
  | cons p t ih =>
    rcases p with ⟨k, v⟩
    intro a h
    have hv : v = none := h (k, v) (List.mem_cons_self _ _)
    simp only [List.lookup_cons]
    cases hk : a == k
    · simpa using ih a (fun q hq => h q (List.mem_cons_of_mem _ hq))
    · simp [hv]

/-! ## Helper lemmas: spatial join and section assignment -/

/-- The section value the deduplicated spatial join carries for a
valid-coordinate row (when index labels are unique): the first polygon in
zone-list order containing the row's point, if any. -/
def seccionPrimera (zonas : List Poligono) (r : GeoRow) : Option Nat :=
  ((zonas.filter (fun z => z.contains (puntoDe r))).head?).map Poligono.seccion

lemma sjoinFilas_fst (zonas : List Poligono) (r : GeoRow) :
    ∀ p ∈ sjoinFilas zonas r, p.1 = r.idx := by
  intro p hp
  simp only [sjoinFilas] at hp
  split at hp
  · rcases List.mem_singleton.mp hp with h
    simp [h]
  · rcases List.mem_map.mp hp with ⟨z, _, hz⟩
    simp [← hz]

lemma sjoinFilas_lookup_self (zonas : List Poligono) (r : GeoRow) :
    (sjoinFilas zonas r).lookup r.idx = some (seccionPrimera zonas r) := by
  simp only [sjoinFilas, seccionPrimera]
  cases hms : zonas.filter (fun z => z.contains (puntoDe r)) with
  | nil => simp [List.lookup_cons]
  | cons z t => simp [List.lookup_cons]

lemma lookup_flatten_sjoin (zonas : List Poligono) :
    ∀ (rs : List GeoRow) (r : GeoRow), r ∈ rs → (rs.map GeoRow.idx).Nodup →
      ((rs.map (sjoinFilas zonas)).flatten).lookup r.idx
        = some (seccionPrimera zonas r) := by
  intro rs
  induction rs with
  | nil => intro r hr _; simp at hr
  | cons x t ih =>
    intro r hr hnd
    simp only [List.map_cons, List.flatten_cons]
    rcases List.mem_cons.mp hr with h' | h'
    · subst h'
      exact lookup_append_left _ _ _ _ (sjoinFilas_lookup_self zonas r)
    · have hx : x.idx ≠ r.idx := by
        simp only [List.map_cons, List.nodup_cons] at hnd
        intro he
        exact hnd.1 (he ▸ List.mem_map_of_mem GeoRow.idx h')
      have hnone : (sjoinFilas zonas x).lookup r.idx = none :=
        lookup_eq_none_of_forall_fst_ne _ _ (fun p hp => by
          rw [sjoinFilas_fst zonas x p hp]; exact hx)
      rw [lookup_append_none _ _ _ hnone]
      refine ih r h' ?_
      simp only [List.map_cons, List.nodup_cons] at hnd
      exact hnd.2

lemma resultadoSjoin_lookup (zonas : List Poligono) (dfG : List GeoRow)
    (hnd : (dfG.map GeoRow.idx).Nodup) (r : GeoRow) (hr : r ∈ dfG)
    (hv : maskValido r = true) :
    (resultadoSjoin zonas dfG).lookup r.idx = some (seccionPrimera zonas r) := by
  rw [resultadoSjoin, lookup_uniqueFirstBy_fst]
  apply lookup_flatten_sjoin
  · exact List.mem_filter.mpr ⟨hr, hv⟩
  · have hsub : ((dfG.filter maskValido).map GeoRow.idx).Sublist (dfG.map GeoRow.idx) :=
      (List.filter_sublist _).map _
    exact hnd.sublist hsub

lemma sjoinFilas_nil_zonas (r : GeoRow) : sjoinFilas [] r = [(r.idx, none)] := by
  simp [sjoinFilas]

lemma resultadoSjoin_values_none (dfG : List GeoRow) :
    ∀ p ∈ resultadoSjoin [] dfG, p.2 = none := by
  intro p hp
  have hp' : p ∈ ((dfG.filter maskValido).map (sjoinFilas [])).flatten :=
    mem_of_mem_uniqueFirstByAux Prod.fst [] _ p hp
  rcases List.mem_flatten.mp hp' with ⟨blk, hblk, hpblk⟩
  rcases List.mem_map.mp hblk with ⟨r, _, hrblk⟩
  rw [← hrblk, sjoinFilas_nil_zonas] at hpblk
  rcases List.mem_singleton.mp hpblk with h
  simp [h]

lemma mem_asignar {zonas : List Poligono} {dfG : List GeoRow} {z : ZonaRow}
    (hz : z ∈ asignarSeccionElectoral zonas dfG) :
    ∃ r ∈ dfG, z = mkZona r z.seccion ∧
      ((maskValido r = true ∧
          z.seccion = ((resultadoSjoin zonas dfG).lookup r.idx).getD none)
        ∨ (maskValido r = false ∧ z.seccion = none)) := by
  simp only [asignarSeccionElectoral, sortByIdx] at hz
  have hz' := (List.perm_insertionSort idxLe _).subset hz
  rcases List.mem_append.mp hz' with h | h
  · rcases List.mem_map.mp h with ⟨r, hrmem, hzr⟩
    have hf := List.mem_filter.mp hrmem
    refine ⟨r, hf.1, ?_, Or.inl ⟨hf.2, ?_⟩⟩
    · rw [← hzr]; rfl
    · rw [← hzr]; rfl
  · rcases List.mem_map.mp h with ⟨r, hrmem, hzr⟩
    have hf := List.mem_filter.mp hrmem
    refine ⟨r, hf.1, ?_, Or.inr ⟨by simpa using hf.2, ?_⟩⟩
    · rw [← hzr]; rfl
    · rw [← hzr]; rfl

/-! ## Helper lemmas: sorting by index label -/

lemma sorted_unique_eq : ∀ (l m : List ZonaRow), l.Perm m → List.Sorted idxLe l →
    m.Pairwise (fun a b => a.idx < b.idx) → l = m := by
  intro l m
  induction m generalizing l with
  | nil => intro hp _ _; exact hp.eq_nil
  | cons b t ih =>
    intro hp hs hpw
    cases l with
    | nil => exact absurd hp.symm.eq_nil (by simp)
    | cons a s =>
      have hab : a = b := by
        have hamem : a ∈ b :: t := hp.subset (List.mem_cons_self a s)
        rcases List.mem_cons.mp hamem with h | h
        · exact h
        · have hba : b.idx < a.idx := (List.pairwise_cons.mp hpw).1 a h
          have hbmem : b ∈ a :: s := hp.symm.subset (List.mem_cons_self b t)
          rcases List.mem_cons.mp hbmem with h' | h'
          · exact h'.symm
          · have hle : idxLe a b := (List.sorted_cons.mp hs).1 b h'
            exact absurd (Nat.lt_of_lt_of_le hba hle) (Nat.lt_irrefl _)
      subst hab
      have hst : s.Perm t := hp.cons_inv
      rw [ih s hst (List.sorted_cons.mp hs).2 (List.pairwise_cons.mp hpw).2]

lemma length_filter_add_length_filter_not {α : Type} (p : α → Bool) (l : List α) :
    (l.filter p).length + (l.filter (fun a => !(p a))).length = l.length := by
  have h := (List.filter_append_perm p l).length_eq
  simpa using h

lemma asignar_length (zonas : List Poligono) (dfG : List GeoRow) :
    (asignarSeccionElectoral zonas dfG).length = dfG.length := by
  simp only [asignarSeccionElectoral, sortByIdx]
  rw [(List.perm_insertionSort idxLe _).length_eq]
  simp [length_filter_add_length_filter_not]

/-- The per-row outcome of `asignar_seccion_electoral` (meaningful when the
split/join/concat/sort steps reassemble the original sequence). -/
def asignaFila (zonas : List Poligono) (dfG : List GeoRow) (r : GeoRow) : ZonaRow :=
  if maskValido r then mkZona r (((resultadoSjoin zonas dfG).lookup r.idx).getD none)
  else mkZona r none

lemma asignaFila_idx (zonas : List Poligono) (dfG : List GeoRow) (r : GeoRow) :
    (asignaFila zonas dfG r).idx = r.idx := by
  unfold asignaFila
  split <;> rfl

/-- With strictly increasing index labels, `asignar_seccion_electoral` is a
per-row map: the split-by-validity, join, concat and `sort_index` steps
reassemble the original row sequence. -/
lemma asignar_ordered (zonas : List Poligono) (dfG : List GeoRow)
    (h : dfG.Pairwise (fun a b => a.idx < b.idx)) :
    asignarSeccionElectoral zonas dfG = dfG.map (asignaFila zonas dfG) := by
  have hcon : (dfG.filter maskValido).map
        (fun r => mkZona r (((resultadoSjoin zonas dfG).lookup r.idx).getD none))
      = (dfG.filter maskValido).map (asignaFila zonas dfG) := by
    apply List.map_congr_left
    intro r hr
    have hv := (List.mem_filter.mp hr).2
    simp [asignaFila, hv]
  have hsin : (dfG.filter (fun r => !(maskValido r))).map (fun r => mkZona r none)
      = (dfG.filter (fun r => !(maskValido r))).map (asignaFila zonas dfG) := by
    apply List.map_congr_left
    intro r hr
    have hv := (List.mem_filter.mp hr).2
    have hv' : maskValido r = false := by simpa using hv
    simp [asignaFila, hv']
  have hperm : (asignarSeccionElectoral zonas dfG).Perm (dfG.map (asignaFila zonas dfG)) := by
    simp only [asignarSeccionElectoral, sortByIdx]
    refine (List.perm_insertionSort idxLe _).trans ?_
    rw [hcon, hsin, ← List.map_append]
    exact (List.filter_append_perm maskValido dfG).map _
  refine sorted_unique_eq _ _ hperm ?_ ?_
  · simp only [asignarSeccionElectoral, sortByIdx]
    exact List.sorted_insertionSort idxLe _
  · refine List.Pairwise.map (asignaFila zonas dfG) ?_ h
    intro a b hab
    simpa [asignaFila_idx] using hab

/-- The per-row content of the frame `geocodificar_direcciones` returns. -/
def geoFila (client : GeocodeClient) (df : List Row) (r : Row) : GeoRow :=
  { idx := r.idx, payload := r.payload, direccion := r.direccion
    latitud := (cacheGet (buildCache client df) r.direccion).1
    longitud := (cacheGet (buildCache client df) r.direccion).2 }

lemma geocodificarDirecciones_eq_map (client : GeocodeClient) (df : List Row) :
    geocodificarDirecciones client df = df.map (geoFila client df) := rfl

/-! ## Helper lemmas: the geocoding cache and the rate limiter -/

lemma mem_direccionesUnicas (df : List Row) (s : String) :
    s ∈ direccionesUnicas df ↔
      ((∃ r ∈ df, r.direccion = some s) ∧ esBlanca s = false) := by
  rw [direccionesUnicas, mem_uniqueFirstBy_id, List.mem_filter]
  simp [valoresDireccion, List.mem_filterMap]

lemma nodup_direccionesUnicas (df : List Row) : (direccionesUnicas df).Nodup := by
  have h := nodup_keys_uniqueFirstBy (id : String → String)
    ((valoresDireccion df).filter (fun s => !(esBlanca s)))
  simpa [direccionesUnicas] using h

lemma buildCache_lookup (client : GeocodeClient) (df : List Row) (s : String) :
    (buildCache client df).lookup s
      = if s ∈ direccionesUnicas df then some (geocodificarUna client s) else none :=
  lookup_map_pair _ _ s

lemma cacheGet_not_mem (client : GeocodeClient) (df : List Row) (s : String)
    (hs : s ∉ direccionesUnicas df) :
    cacheGet (buildCache client df) (some s) = (none, none) := by
  simp [cacheGet, buildCache_lookup, hs]

lemma cacheGet_blank (client : GeocodeClient) (df : List Row) (s : String)
    (hb : esBlanca s = true) :
    cacheGet (buildCache client df) (some s) = (none, none) := by
  apply cacheGet_not_mem
  intro hmem
  have h := (mem_direccionesUnicas df s).mp hmem
  rw [h.2] at hb
  exact Bool.false_ne_true hb

lemma cacheGet_mem (client : GeocodeClient) (df : List Row) (s : String)
    (hs : s ∈ direccionesUnicas df) :
    cacheGet (buildCache client df) (some s) = geocodificarUna client s := by
  simp [cacheGet, buildCache_lookup, hs]

lemma geocodificarUna_paired (client : GeocodeClient) (d : String) :
    (geocodificarUna client d).1.isSome = (geocodificarUna client d).2.isSome := by
  unfold geocodificarUna
  split
  · rfl
  · cases hr : rateLimiter (client d) <;> simp [hr]

lemma cacheGet_paired (client : GeocodeClient) (df : List Row) (o : Option String) :
    (cacheGet (buildCache client df) o).1.isSome
      = (cacheGet (buildCache client df) o).2.isSome := by
  cases o with
  | none => rfl
  | some s =>
    by_cases hs : s ∈ direccionesUnicas df
    · rw [cacheGet_mem client df s hs]
      exact geocodificarUna_paired client s
    · rw [cacheGet_not_mem client df s hs]

lemma rateLimiter_fail (c : Nat → Except Unit (Option Location))
    (h : ∀ k, c k = Except.error ()) : rateLimiter c = none := by
  simp [rateLimiter, rateLimiterAux, MAX_RETRIES, h]

lemma rateLimiterLlamadas_fail (c : Nat → Except Unit (Option Location))
    (h : ∀ k, c k = Except.error ()) : rateLimiterLlamadas c = 1 + MAX_RETRIES := by
  simp [rateLimiterLlamadas, rateLimiterLlamadasAux, MAX_RETRIES, h]

lemma rateLimiter_oknone (c : Nat → Except Unit (Option Location))
    (h : ∀ k, c k = Except.ok none) : rateLimiter c = none := by
  simp [rateLimiter, rateLimiterAux, MAX_RETRIES, h]

lemma geocodificarUna_fail (client : GeocodeClient)
    (h : ∀ a k, client a k = Except.error ()) (d : String) :
    geocodificarUna client d = (none, none) := by
  unfold geocodificarUna
  split
  · rfl
  · rw [rateLimiter_fail _ (h d)]

lemma geocodificarUna_oknone (client : GeocodeClient)
    (h : ∀ a k, client a k = Except.ok none) (d : String) :
    geocodificarUna client d = (none, none) := by
  unfold geocodificarUna
  split
  · rfl
  · rw [rateLimiter_oknone _ (h d)]

/-! ## Concrete fixtures for witnesses and counterexamples -/

/-- A geocode client failing (raising/timing out) on every call. -/
def clientFalla : GeocodeClient := fun _ _ => Except.error ()

/-- A geocode client returning a null location (no result, no raise) on
every call. -/
def clientNulo : GeocodeClient := fun _ _ => Except.ok none

/-- A stub client resolving every address to latitude 20, longitude -100. -/
def clientStub : GeocodeClient := fun _ _ => Except.ok (some ⟨20, -100⟩)

/-- A polygon containing exactly the point (lon, lat) = (-100, 20),
labelled section 1. -/
def zonaUno : Poligono := ⟨1, fun p => p == ((-100 : Rat), (20 : Rat))⟩

/-- Sample frame: two rows sharing a non-blank address, one empty-address
row, one further distinct address. -/
def dfEj : List Row :=
  [⟨0, 0, some "Calle A 10, CiudadX"⟩, ⟨1, 1, some "Calle A 10, CiudadX"⟩,
   ⟨2, 2, some ""⟩, ⟨3, 3, some "Av B 5"⟩]

/-- The first row of `dfEj`. -/
def filaEj : Row := ⟨0, 0, some "Calle A 10, CiudadX"⟩

/-- The row the pipeline produces for the empty-address row of `dfEj`. -/
def zBlanca : ZonaRow := ⟨2, 2, some "", none, none, none⟩

/-! ## Claims -/

/-- **C8**: constructing a `GeoReferenciador` with a provider name absent
from the `PROVEEDORES` registry fails with a configuration error — and the
constructor consumes no rows and dispatches no lookup, so the failure
precedes any work — while construction succeeds for each registered name
(ArcGIS, Photon, Nominatim). -/
theorem C8_proveedor_desconocido (p : String)
    (h : p ∉ PROVEEDORES.map Prod.fst) :
    (georeferenciadorInit p).isOk = false ∧
    (georeferenciadorInit "ArcGIS").isOk = true ∧
    (georeferenciadorInit "Photon").isOk = true ∧
    (georeferenciadorInit "Nominatim").isOk = true := by
  have hln : PROVEEDORES.lookup p = none := by
    apply lookup_eq_none_of_forall_fst_ne
    intro q hq he
    exact h (he ▸ List.mem_map_of_mem Prod.fst hq)
  refine ⟨?_, by decide, by decide, by decide⟩
  unfold georeferenciadorInit
  rw [hln]
  rfl

/-- Witness for C8 at the concrete unknown provider name "Google". -/
theorem C8_witness :
    ("Google" ∉ PROVEEDORES.map Prod.fst) ∧
    (georeferenciadorInit "Google").isOk = false :=
  ⟨by decide, (C8_proveedor_desconocido "Google" (by decide)).1⟩

/-- **C5**: with a geocode client that fails on every call, the lookup for
any address is retried up to the fixed cap of `MAX_RETRIES = 2` retries
(`1 + MAX_RETRIES` underlying calls in all), the recorded outcome is the
unresolved pair `(none, none)`, and `geocodificar_direcciones` still
returns a total, row-aligned result (every output row carries absent
coordinates) instead of propagating the failure. -/
theorem C5_reintentos_agotados (client : GeocodeClient)
    (h : ∀ a k, client a k = Except.error ()) (d : String) :
    rateLimiter (client d) = none ∧
    rateLimiterLlamadas (client d) = 1 + MAX_RETRIES ∧
    geocodificarUna client d = (none, none) ∧
    (∀ df : List Row, ∀ z ∈ geocodificarDirecciones client df,
      z.latitud = none ∧ z.longitud = none) := by
  refine ⟨rateLimiter_fail _ (h d), rateLimiterLlamadas_fail _ (h d),
    geocodificarUna_fail client h d, ?_⟩
  intro df z hz
  rw [geocodificarDirecciones_eq_map] at hz
  rcases List.mem_map.mp hz with ⟨r, _, hrz⟩
  subst hrz
  have hget : ∀ o, cacheGet (buildCache client df) o = (none, none) := by
    intro o
    cases o with
    | none => rfl
    | some s =>
      by_cases hs : s ∈ direccionesUnicas df
      · rw [cacheGet_mem client df s hs, geocodificarUna_fail client h s]
      · exact cacheGet_not_mem client df s hs
  constructor <;> simp [geoFila, hget]

/-- Witness for C5 at the concrete always-failing client. -/
theorem C5_witness :
    rateLimiter (clientFalla "Calle A 10, CiudadX") = none ∧
    rateLimiterLlamadas (clientFalla "Calle A 10, CiudadX") = 1 + MAX_RETRIES ∧
    geocodificarUna clientFalla "Calle A 10, CiudadX" = (none, none) :=
  ⟨(C5_reintentos_agotados clientFalla (fun _ _ => rfl) "Calle A 10, CiudadX").1,
   (C5_reintentos_agotados clientFalla (fun _ _ => rfl) "Calle A 10, CiudadX").2.1,
   (C5_reintentos_agotados clientFalla (fun _ _ => rfl) "Calle A 10, CiudadX").2.2.1⟩

/-- **C10**: a client returning a null location without raising produces
exactly the `(none, none)` outcome of an always-raising client —
not-found and transport failure are indistinguishable at the interface —
and under such a client every pipeline row ends with absent coordinates
and section `none`. -/
theorem C10_nulo_equivale_fallo (cNulo cFalla : GeocodeClient)
    (h1 : ∀ a k, cNulo a k = Except.ok none)
    (h2 : ∀ a k, cFalla a k = Except.error ()) (d : String) :
    geocodificarUna cNulo d = geocodificarUna cFalla d ∧
    geocodificarUna cNulo d = (none, none) ∧
    (∀ zonas : List Poligono, ∀ df : List Row, ∀ z ∈ ejecutar cNulo zonas df,
      z.latitud = none ∧ z.longitud = none ∧ z.seccion = none) := by
  refine ⟨?_, geocodificarUna_oknone cNulo h1 d, ?_⟩
  · rw [geocodificarUna_oknone cNulo h1 d, geocodificarUna_fail cFalla h2 d]
  · intro zonas df z hz
    rw [ejecutar] at hz
    rcases mem_asignar hz with ⟨r, hrmem, hzeq, hcase⟩
    have hlat : z.latitud = r.latitud := by rw [hzeq]; rfl
    have hlon : z.longitud = r.longitud := by rw [hzeq]; rfl
    rw [geocodificarDirecciones_eq_map] at hrmem
    rcases List.mem_map.mp hrmem with ⟨r0, _, hr0⟩
    have hget : ∀ o, cacheGet (buildCache cNulo df) o = (none, none) := by
      intro o
      cases o with
      | none => rfl
      | some s =>
        by_cases hs : s ∈ direccionesUnicas df
        · rw [cacheGet_mem cNulo df s hs, geocodificarUna_oknone cNulo h1 s]
        · exact cacheGet_not_mem cNulo df s hs
    have hrl : r.latitud = none := by rw [← hr0]; simp [geoFila, hget]
    have hrg : r.longitud = none := by rw [← hr0]; simp [geoFila, hget]
    have hmv : maskValido r = false := by simp [maskValido, hrl]
    rcases hcase with ⟨hv, _⟩ | ⟨_, hsec⟩
    · rw [hmv] at hv; exact absurd hv (by simp)
    · exact ⟨hlat.trans hrl, hlon.trans hrg, hsec⟩

/-- Witness for C10 at the concrete null-result and failing clients. -/
theorem C10_witness :
    geocodificarUna clientNulo "Calle A 10, CiudadX"
      = geocodificarUna clientFalla "Calle A 10, CiudadX" ∧
    geocodificarUna clientNulo "Calle A 10, CiudadX" = (none, none) :=
  ⟨(C10_nulo_equivale_fallo clientNulo clientFalla (fun _ _ => rfl) (fun _ _ => rfl)
      "Calle A 10, CiudadX").1,
   (C10_nulo_equivale_fallo clientNulo clientFalla (fun _ _ => rfl) (fun _ _ => rfl)
      "Calle A 10, CiudadX").2.1⟩

/-- **C9**: latitude and longitude are paired — in every outcome
`_geocodificar_una` produces, and in every output row of
`geocodificar_direcciones`, `LATITUD` is present exactly when `LONGITUD`
is; the pair `(none, none)` encodes "not resolved". -/
theorem C9_coordenadas_emparejadas (client : GeocodeClient) (df : List Row) :
    (∀ d, (geocodificarUna client d).1.isSome = (geocodificarUna client d).2.isSome) ∧
    (∀ z ∈ geocodificarDirecciones client df, z.latitud.isSome = z.longitud.isSome) := by
  refine ⟨geocodificarUna_paired client, ?_⟩
  intro z hz
  rw [geocodificarDirecciones_eq_map] at hz
  rcases List.mem_map.mp hz with ⟨r, _, hrz⟩
  subst hrz
  simpa [geoFila] using cacheGet_paired client df r.direccion

/-- Witness for C9 at a concrete frame and row. -/
theorem C9_witness :
    (geoFila clientStub dfEj filaEj) ∈ geocodificarDirecciones clientStub dfEj ∧
    ((geoFila clientStub dfEj filaEj).latitud.isSome
      = (geoFila clientStub dfEj filaEj).longitud.isSome) :=
  ⟨by rw [geocodificarDirecciones_eq_map]; exact List.mem_map_of_mem _ (by decide),
   (C9_coordenadas_emparejadas clientStub dfEj).2 _
     (by rw [geocodificarDirecciones_eq_map]; exact List.mem_map_of_mem _ (by decide))⟩

/-- **C6**: a row whose address cell is missing (`NaN`), empty or
whitespace-only triggers no lookup — its address never enters the
unique-address list that is dispatched to the geocoder — and ends the
pipeline with absent coordinates (`LATITUD`/`LONGITUD` both `none`) and
section `none`. -/
theorem C6_direccion_blanca (client : GeocodeClient) (zonas : List Poligono)
    (df : List Row) :
    (∀ s, esBlanca s = true → s ∉ direccionesUnicas df) ∧
    (∀ z ∈ ejecutar client zonas df,
      (z.direccion = none ∨ ∃ s, z.direccion = some s ∧ esBlanca s = true) →
      z.latitud = none ∧ z.longitud = none ∧ z.seccion = none) := by
  constructor
  · intro s hb hmem
    have h := (mem_direccionesUnicas df s).mp hmem
    rw [h.2] at hb
    exact Bool.false_ne_true hb
  · intro z hz hblank
    rw [ejecutar] at hz
    rcases mem_asignar hz with ⟨r, hrmem, hzeq, hcase⟩
    have hdir : z.direccion = r.direccion := by rw [hzeq]; rfl
    have hlat : z.latitud = r.latitud := by rw [hzeq]; rfl
    have hlon : z.longitud = r.longitud := by rw [hzeq]; rfl
    rw [geocodificarDirecciones_eq_map] at hrmem
    rcases List.mem_map.mp hrmem with ⟨r0, _, hr0⟩
    have hrlat : r.latitud = (cacheGet (buildCache client df) r0.direccion).1 := by
      rw [← hr0]; rfl
    have hrlon : r.longitud = (cacheGet (buildCache client df) r0.direccion).2 := by
      rw [← hr0]; rfl
    have hrdir : r.direccion = r0.direccion := by rw [← hr0]; rfl
    have hcg : cacheGet (buildCache client df) r0.direccion = (none, none) := by
      rcases hblank with hnone | ⟨s, hsome, hb⟩
      · rw [hdir, hrdir] at hnone
        rw [hnone]
        rfl
      · rw [hdir, hrdir] at hsome
        rw [hsome]
        exact cacheGet_blank client df s hb
    have hrl : r.latitud = none := by rw [hrlat, hcg]
    have hrg : r.longitud = none := by rw [hrlon, hcg]
    have hmv : maskValido r = false := by simp [maskValido, hrl]
    rcases hcase with ⟨hv, _⟩ | ⟨_, hsec⟩
    · rw [hmv] at hv; exact absurd hv (by simp)
    · exact ⟨hlat.trans hrl, hlon.trans hrg, hsec⟩

/-- Witness for C6: the empty-address row of `dfEj` through the whole
pipeline under the stub client and a nontrivial zone list. -/
theorem C6_witness :
    zBlanca ∈ ejecutar clientStub [zonaUno] dfEj ∧
    zBlanca.latitud = none ∧ zBlanca.longitud = none ∧ zBlanca.seccion = none :=
  ⟨by decide,
   (C6_direccion_blanca clientStub [zonaUno] dfEj).2 zBlanca (by decide)
     (Or.inr ⟨"", rfl, rfl⟩)⟩

/-- **C3**: when `N ≥ 2` rows share one non-blank address, that address
appears exactly once in the dispatched unique-address list (one lookup),
the cache holds exactly one entry for that key (written once, never
overwritten), the output has exactly the same `N` rows bearing the
address, and each of them carries the identical coordinate pair produced
by that single lookup. -/
theorem C3_direcciones_duplicadas (client : GeocodeClient) (df : List Row)
    (a : String) (hb : esBlanca a = false)
    (hN : 2 ≤ df.countP (fun r => r.direccion == some a)) :
    (direccionesUnicas df).count a = 1 ∧
    ((buildCache client df).map Prod.fst).count a = 1 ∧
    (geocodificarDirecciones client df).countP (fun z => z.direccion == some a)
      = df.countP (fun r => r.direccion == some a) ∧
    (∀ z ∈ geocodificarDirecciones client df, z.direccion = some a →
      z.latitud = (geocodificarUna client a).1 ∧
      z.longitud = (geocodificarUna client a).2) := by
  have hex : ∃ r ∈ df, r.direccion = some a := by
    have hpos : 0 < df.countP (fun r => r.direccion == some a) :=
      Nat.lt_of_lt_of_le (by norm_num) hN
    rcases List.countP_pos_iff.mp hpos with ⟨r, hrmem, hp⟩
    exact ⟨r, hrmem, by simpa using hp⟩
  have hmem : a ∈ direccionesUnicas df := (mem_direccionesUnicas df a).mpr ⟨hex, hb⟩
  have hcount : (direccionesUnicas df).count a = 1 :=
    List.count_eq_one_of_mem (nodup_direccionesUnicas df) hmem
  refine ⟨hcount, ?_, ?_, ?_⟩
  · have hkeys : (buildCache client df).map Prod.fst = direccionesUnicas df := by
      rw [buildCache, List.map_map]
      exact List.map_id'' (fun x => rfl) _
    rw [hkeys]
    exact hcount
  · rw [geocodificarDirecciones_eq_map, List.countP_map]
    rfl
  · intro z hz hdir
    rw [geocodificarDirecciones_eq_map] at hz
    rcases List.mem_map.mp hz with ⟨r, _, hrz⟩
    subst hrz
    have hrd : r.direccion = some a := hdir
    constructor
    · show (cacheGet (buildCache client df) r.direccion).1 = _
      rw [hrd, cacheGet_mem client df a hmem]
    · show (cacheGet (buildCache client df) r.direccion).2 = _
      rw [hrd, cacheGet_mem client df a hmem]

/-- Witness for C3: the duplicated address of `dfEj` under the stub
client. -/
theorem C3_witness :
    esBlanca "Calle A 10, CiudadX" = false ∧
    2 ≤ dfEj.countP (fun r => r.direccion == some "Calle A 10, CiudadX") ∧
    (direccionesUnicas dfEj).count "Calle A 10, CiudadX" = 1 :=
  ⟨by decide, by decide,
   (C3_direcciones_duplicadas clientStub dfEj "Calle A 10, CiudadX"
     (by decide) (by decide)).1⟩

/-- The callback trace written out: one entry per unique address, numbered
from 1, with the constant total. -/
lemma progresoTrace_eq (client : GeocodeClient) (df : List Row) :
    progresoTrace client df = (direccionesUnicas df).enum.map
      (fun p => (p.1 + 1, (direccionesUnicas df).length, p.2)) := rfl

/-- **C4**: for `T` distinct non-blank addresses the progress callback is
invoked exactly `T` times; the `progreso` argument is exactly
`1, 2, ..., T` (strictly increasing, no gaps or repeats), the `total`
argument is `T` on every call, no address is reported twice, and when
`T > 0` the final call has `progreso = total`. -/
theorem C4_progreso (client : GeocodeClient) (df : List Row) :
    (progresoTrace client df).length = (direccionesUnicas df).length ∧
    (progresoTrace client df).map (fun c => c.1)
      = List.range' 1 (direccionesUnicas df).length ∧
    (∀ c ∈ progresoTrace client df, c.2.1 = (direccionesUnicas df).length) ∧
    ((progresoTrace client df).map (fun c => c.2.2)).Nodup ∧
    (0 < (direccionesUnicas df).length →
      ((progresoTrace client df).getLast?).map (fun c => c.1)
          = some (direccionesUnicas df).length ∧
      ((progresoTrace client df).getLast?).map (fun c => c.2.1)
          = some (direccionesUnicas df).length) := by
  have hfst : (progresoTrace client df).map (fun c => c.1)
      = List.range' 1 (direccionesUnicas df).length := by
    rw [progresoTrace_eq, List.map_map]
    have h1 : ((fun c : Nat × Nat × String => c.1) ∘
          (fun p : Nat × String => (p.1 + 1, (direccionesUnicas df).length, p.2)))
        = (fun n => 1 + n) ∘ Prod.fst := by
      funext p
      simp [Function.comp, Nat.add_comm]
    rw [h1, ← List.map_map, List.enum_map_fst, List.range'_eq_map_range]
  have htot : ∀ c ∈ progresoTrace client df, c.2.1 = (direccionesUnicas df).length := by
    intro c hc
    rw [progresoTrace_eq] at hc
    rcases List.mem_map.mp hc with ⟨p, _, hpc⟩
    rw [← hpc]
  refine ⟨?_, hfst, htot, ?_, ?_⟩
  · rw [progresoTrace_eq, List.length_map, List.enum_length]
  · have h2 : (progresoTrace client df).map (fun c => c.2.2) = direccionesUnicas df := by
      rw [progresoTrace_eq, List.map_map]
      have h3 : ((fun c : Nat × Nat × String => c.2.2) ∘
            (fun p : Nat × String => (p.1 + 1, (direccionesUnicas df).length, p.2)))
          = Prod.snd := by
        funext p
        rfl
      rw [h3, List.enum_map_snd]
    rw [h2]
    exact nodup_direccionesUnicas df
  · intro hT
    rcases Nat.exists_eq_add_of_lt hT with ⟨n, hn⟩
    have hlast : ((progresoTrace client df).getLast?).map (fun c => c.1)
        = some (direccionesUnicas df).length := by
      have h4 := congrArg List.getLast? hfst
      rw [List.getLast?_map] at h4
      rw [h4, hn]
      simp only [Nat.zero_add] at *
      rw [List.range'_concat]
      simp [List.getLast?_concat, Nat.add_comm]
    refine ⟨hlast, ?_⟩
    rcases hc : (progresoTrace client df).getLast? with _ | c
    · rw [hc] at hlast
      simp at hlast
    · have hcmem : c ∈ progresoTrace client df := List.mem_of_mem_getLast? hc
      rw [Option.map_some']
      rw [htot c hcmem]

/-- Witness for C4 at the concrete frame `dfEj` (two distinct non-blank
addresses). -/
theorem C4_witness :
    0 < (direccionesUnicas dfEj).length ∧
    ((progresoTrace clientStub dfEj).getLast?).map (fun c => c.1)
        = some (direccionesUnicas dfEj).length ∧
    ((progresoTrace clientStub dfEj).getLast?).map (fun c => c.2.1)
        = some (direccionesUnicas dfEj).length :=
  ⟨by decide, ((C4_progreso clientStub dfEj).2.2.2.2 (by decide)).1,
   ((C4_progreso clientStub dfEj).2.2.2.2 (by decide)).2⟩

/-- **C1** (amended): the pipeline always preserves the row count; and,
provided the input frame's index is strictly increasing — as with the
default `RangeIndex` every caller in this repository uses — it returns
exactly the input rows, in the input order and positions, with only the
new columns added.  As stated for *every* input frame the claim fails:
the final `sort_index()` of `asignar_seccion_electoral` puts a frame whose
index was not already sorted into index order (see `C1_counterexample`). -/
theorem C1_orden_filas (client : GeocodeClient) (zonas : List Poligono)
    (df : List Row) :
    (ejecutar client zonas df).length = df.length ∧
    ((df.map Row.idx).Pairwise (· < ·) →
      (ejecutar client zonas df).map ZonaRow.aRow = df) := by
  constructor
  · rw [ejecutar, asignar_length, geocodificarDirecciones_eq_map, List.length_map]
  · intro h
    have hdf : df.Pairwise (fun a b => a.idx < b.idx) := List.pairwise_map.mp h
    have hgeo : (df.map (geoFila client df)).Pairwise
        (fun a b : GeoRow => a.idx < b.idx) := by
      refine List.Pairwise.map _ ?_ hdf
      intro a b hab
      exact hab
    rw [ejecutar, geocodificarDirecciones_eq_map, asignar_ordered _ _ hgeo,
      List.map_map, List.map_map]
    apply List.map_id''
    intro r
    show (asignaFila _ _ (geoFila client df r)).aRow = r
    unfold asignaFila
    split <;> rfl

/-- A frame whose index labels are `[1, 0]` (not sorted). -/
def dfDesordenado : List Row := [⟨1, 10, none⟩, ⟨0, 11, none⟩]

/-- Counterexample to C1 as stated: on `dfDesordenado` the pipeline emits
the rows in index order `0, 1`, i.e. reordered with respect to the input
positions. -/
theorem C1_counterexample :
    (ejecutar clientFalla [] dfDesordenado).map ZonaRow.aRow ≠ dfDesordenado := by
  decide

/-- Witness for C1 (amended) at a concrete strictly increasing frame. -/
theorem C1_witness :
    ((dfEj.map Row.idx).Pairwise (· < ·)) ∧
    (ejecutar clientStub [zonaUno] dfEj).map ZonaRow.aRow = dfEj :=
  ⟨by decide, (C1_orden_filas clientStub [zonaUno] dfEj).2 (by decide)⟩

/-- **C7** (amended): `asignar_seccion_electoral` never fails on missing or
unmatched geometry: a row with absent coordinates always gets section
`none` (it is routed around the spatial join), with an empty zone list
every row gets section `none`, and — provided the frame's index labels are
pairwise distinct, as with the default `RangeIndex` — a valid-coordinate
row whose point lies inside no polygon gets section `none`.  As stated for
*every* frame the unmatched-point part fails: with duplicated index labels
the keep-first dedup plus index-aligned column assignment copies another
same-labelled row's section onto the unmatched row (see
`C7_counterexample`). -/
theorem C7_geometria_faltante (zonas : List Poligono) (dfG : List GeoRow) :
    (∀ z ∈ asignarSeccionElectoral zonas dfG,
      (z.latitud = none ∨ z.longitud = none) → z.seccion = none) ∧
    ((dfG.map GeoRow.idx).Nodup →
      ∀ z ∈ asignarSeccionElectoral zonas dfG,
        (∀ zona ∈ zonas, zona.contains (z.longitud.getD 0, z.latitud.getD 0) = false) →
        z.seccion = none) ∧
    (zonas = [] → ∀ z ∈ asignarSeccionElectoral zonas dfG, z.seccion = none) := by
  refine ⟨?_, ?_, ?_⟩
  · intro z hz habs
    rcases mem_asignar hz with ⟨r, _, hzeq, hcase⟩
    have hlat : z.latitud = r.latitud := by rw [hzeq]; rfl
    have hlon : z.longitud = r.longitud := by rw [hzeq]; rfl
    rcases hcase with ⟨hv, _⟩ | ⟨_, hsec⟩
    · exfalso
      rcases habs with h' | h'
      · rw [hlat] at h'
        simp [maskValido, h'] at hv
      · rw [hlon] at h'
        simp [maskValido, h'] at hv
    · exact hsec
  · intro hnd z hz hmiss
    rcases mem_asignar hz with ⟨r, hrmem, hzeq, hcase⟩
    have hlat : z.latitud = r.latitud := by rw [hzeq]; rfl
    have hlon : z.longitud = r.longitud := by rw [hzeq]; rfl
    rcases hcase with ⟨hv, hsec⟩ | ⟨_, hsec⟩
    · rw [hsec, resultadoSjoin_lookup zonas dfG hnd r hrmem hv]
      have hfil : zonas.filter (fun zona => zona.contains (puntoDe r)) = [] := by
        rw [List.filter_eq_nil_iff]
        intro zona hzona
        have := hmiss zona hzona
        rw [hlat, hlon] at this
        simp [puntoDe, this]
      simp [seccionPrimera, hfil]
    · exact hsec
  · intro hz0 z hz
    rcases mem_asignar hz with ⟨r, _, hzeq, hcase⟩
    rcases hcase with ⟨_, hsec⟩ | ⟨_, hsec⟩
    · rw [hsec]
      subst hz0
      exact lookup_getD_none_of_forall_none _ _ (resultadoSjoin_values_none dfG)
    · exact hsec

/-- A polygon containing exactly the point (lon, lat) = (0, 0), section 7. -/
def polyCero : Poligono := ⟨7, fun p => p == ((0 : Rat), (0 : Rat))⟩

/-- A valid row at the contained point, index label 0. -/
def filaDupA : GeoRow := ⟨0, 0, none, some 0, some 0⟩

/-- A valid row at an uncontained point, with the same index label 0. -/
def filaDupB : GeoRow := ⟨0, 1, none, some 1, some 1⟩

/-- A valid row at an uncontained point, fresh index label 1. -/
def filaFuera : GeoRow := ⟨1, 1, none, some 1, some 1⟩

/-- The output row for `filaFuera`. -/
def zFuera : ZonaRow := ⟨1, 1, none, some 1, some 1, none⟩

/-- Counterexample to C7 as stated: with duplicated index labels, the row
`filaDupB` — valid coordinates, inside no polygon — receives section 7
(copied from the same-labelled `filaDupA`) instead of `none`. -/
theorem C7_counterexample :
    ¬ (∀ z ∈ asignarSeccionElectoral [polyCero] [filaDupA, filaDupB],
        (∀ zona ∈ [polyCero],
          zona.contains (z.longitud.getD 0, z.latitud.getD 0) = false) →
        z.seccion = none) := by
  decide

/-- Witness for C7 (amended): with distinct labels the unmatched row does
get section `none`. -/
theorem C7_witness :
    (([filaDupA, filaFuera].map GeoRow.idx).Nodup) ∧
    zFuera ∈ asignarSeccionElectoral [polyCero] [filaDupA, filaFuera] ∧
    zFuera.seccion = none :=
  ⟨by decide, by decide,
   (C7_geometria_faltante [polyCero] [filaDupA, filaFuera]).2.1 (by decide)
     zFuera (by decide) (by decide)⟩
